import Mathlib

/-!
Shallow embedding of the stream-subscription registry, broadcast engine and
per-connection session dispatch of `src/app.py` (a FastAPI websocket fan-out
service), together with proofs of the spec claims about them.

Modelling conventions:
* A live websocket connection is an opaque handle; we model it as a `Nat`.
* `json.loads` produces arbitrary JSON values; we model them by the mutual
  inductives `Json` / `JsonList` / `JsonFields`.  Python dict keys used as
  stream names can be arbitrary JSON values coming off the wire, so a
  `Topic` is a `Json` value (the spec's string topics are the `Json.jStr`
  values).
* Python dicts are modelled as association lists without duplicate keys,
  preserving insertion order (`d[k] = v` updates in place or appends;
  `del d[k]` removes).  Python sets are modelled as duplicate-free lists
  (`add` appends if absent, `discard` filters).  Python `==` on dicts
  compares key sets and, for set values, element sets, ignoring order;
  `dictEquiv` below captures that.
* The global mutable pair `stream_subscriptions` / `client_streams` of
  `app.py` becomes the `Registry` structure, and each mutating function
  takes and returns a `Registry`.
* Sends over the network either succeed or raise; `broadcast_to_stream`
  takes the set of connections whose send fails as a parameter and returns
  the list of (connection, message) deliveries that succeed.
-/

/-- Opaque identity of one websocket connection. -/
abbrev Conn := Nat

mutual
/-- JSON values as returned by `json.loads`. -/
inductive Json where
  | jNull : Json
  | jBool (b : Bool) : Json
  | jNum (n : Int) : Json
  | jStr (s : String) : Json
  | jArr (elems : JsonList) : Json
  | jObj (fields : JsonFields) : Json
/-- A JSON array body. -/
inductive JsonList where
  | nil : JsonList
  | cons (head : Json) (tail : JsonList) : JsonList
/-- A JSON object body: the bindings of a parsed dict (no duplicate keys). -/
inductive JsonFields where
  | fnil : JsonFields
  | fcons (key : String) (val : Json) (tail : JsonFields) : JsonFields
end

deriving instance DecidableEq for Json
deriving instance DecidableEq for JsonList
deriving instance DecidableEq for JsonFields

/-- Stream names are JSON values taken from inbound frames; the spec's topics
are the string values. -/
abbrev Topic := Json

/-- Python `msg.get(key)` on a parsed JSON object body. -/
def JsonFields.get : JsonFields → String → Option Json
  | JsonFields.fnil, _ => none
  | JsonFields.fcons k v rest, key => if k = key then some v else rest.get key

/-- Emptiness of a JSON array body. -/
def JsonList.isNil : JsonList → Bool
  | JsonList.nil => true
  | JsonList.cons _ _ => false

/-- Emptiness of a JSON object body. -/
def JsonFields.isNil : JsonFields → Bool
  | JsonFields.fnil => true
  | JsonFields.fcons _ _ _ => false

/-- Python truthiness of a JSON value: `None`, `False`, `0`, `""`, `[]` and
an empty dict are falsy, everything else is truthy. -/
def pyTruthy : Json → Bool
  | Json.jNull => false
  | Json.jBool b => b
  | Json.jNum n => decide (¬ n = 0)
  | Json.jStr s => !s.isEmpty
  | Json.jArr xs => !xs.isNil
  | Json.jObj fs => !fs.isNil

/-- Python truthiness of the result of `msg.get(key)` (`None` when absent). -/
def pyTruthyOpt : Option Json → Bool
  | none => false
  | some v => pyTruthy v

/-- Python `d.get(k)` / `d[k]` on an association-list dict: first binding
wins (our operations never create duplicate keys). -/
def dictLookup {k : Type} {v : Type} [DecidableEq k] : List (k × v) → k → Option v
  | [], _ => none
  | (k', v') :: rest, key => if k' = key then some v' else dictLookup rest key

/-- Python `k in d`. -/
def dictContains {k v : Type} [DecidableEq k] (d : List (k × v)) (key : k) : Bool :=
  (dictLookup d key).isSome

/-- Python `d[k] = v`: update in place if the key exists, else append. -/
def dictInsert {k v : Type} [DecidableEq k] : List (k × v) → k → v → List (k × v)
  | [], key, val => [(key, val)]
  | (k', v') :: rest, key, val =>
      if k' = key then (key, val) :: rest else (k', v') :: dictInsert rest key val

/-- Python `del d[k]`. -/
def dictRemove {k v : Type} [DecidableEq k] (d : List (k × v)) (key : k) : List (k × v) :=
  d.filter (fun p => !(decide (p.1 = key)))

/-- Python `s.add(x)` on a set modelled as a duplicate-free list. -/
def setAdd {a : Type} [DecidableEq a] (s : List a) (x : a) : List a :=
  if x ∈ s then s else s ++ [x]

/-- Python `s.discard(x)`. -/
def setDiscard {a : Type} [DecidableEq a] (s : List a) (x : a) : List a :=
  s.filter (fun y => !(decide (y = x)))

/-- The two module-level dicts of `app.py`:
`stream_subscriptions : Dict[str, Set[WebSocket]]` and
`client_streams : Dict[WebSocket, Set[str]]`. -/
structure Registry where
  stream_subscriptions : List (Topic × List Conn)
  client_streams : List (Conn × List Topic)
deriving DecidableEq

/-- The initial state: both dicts empty. -/
def emptyRegistry : Registry := ⟨[], []⟩

/-- Membership of connection `c` in the forward map entry of topic `t`
(`websocket in stream_subscriptions[stream_name]`, false when the key is
absent). -/
def memFwd (r : Registry) (c : Conn) (t : Topic) : Bool :=
  match dictLookup r.stream_subscriptions t with
  | some cs => decide (c ∈ cs)
  | none => false

/-- Membership of topic `t` in the inverse map entry of connection `c`. -/
def memInv (r : Registry) (c : Conn) (t : Topic) : Bool :=
  match dictLookup r.client_streams c with
  | some ts => decide (t ∈ ts)
  | none => false

/-- `subscribe_to_stream` of `app.py` (lines 20-35): create the forward entry
if missing, return `False` when already subscribed, else add the connection
to the forward set and the topic to the inverse set.  The early `False`
return can only fire when the key already existed (a freshly created set is
empty), so the state is returned untouched there. -/
def subscribe_to_stream (r : Registry) (websocket : Conn) (stream_name : Topic) :
    Bool × Registry :=
  let cur := (dictLookup r.stream_subscriptions stream_name).getD []
  if websocket ∈ cur then
    (false, r)
  else
    let ss := dictInsert r.stream_subscriptions stream_name (setAdd cur websocket)
    let ts := (dictLookup r.client_streams websocket).getD []
    let cs := dictInsert r.client_streams websocket (setAdd ts stream_name)
    (true, ⟨ss, cs⟩)

/-- `unsubscribe_from_stream` of `app.py` (lines 38-56): `False` when the
topic key is absent or the connection is not in its set; otherwise discard
the connection from the forward set, discard the topic from the inverse set
when the connection has one, and delete the forward key when its set became
empty. -/
def unsubscribe_from_stream (r : Registry) (websocket : Conn) (stream_name : Topic) :
    Bool × Registry :=
  match dictLookup r.stream_subscriptions stream_name with
  | none => (false, r)
  | some cs =>
      if websocket ∈ cs then
        let cs' := setDiscard cs websocket
        let ss := dictInsert r.stream_subscriptions stream_name cs'
        let cls :=
          match dictLookup r.client_streams websocket with
          | some ts => dictInsert r.client_streams websocket (setDiscard ts stream_name)
          | none => r.client_streams
        let ss' := if cs'.isEmpty then dictRemove ss stream_name else ss
        (true, ⟨ss', cls⟩)
      else
        (false, r)

/-- The `for stream_name in streams: unsubscribe_from_stream(websocket,
stream_name)` loop of `cleanup_client_subscriptions`, over a snapshot list
of topics. -/
def unsubFold (r : Registry) (websocket : Conn) (streams : List Topic) : Registry :=
  streams.foldl
    (fun acc stream_name => (unsubscribe_from_stream acc websocket stream_name).2) r

/-- `cleanup_client_subscriptions` of `app.py` (lines 59-69): no-op when the
connection has no inverse entry; otherwise unsubscribe it from a snapshot of
its streams, then delete its inverse entry. -/
def cleanup_client_subscriptions (r : Registry) (websocket : Conn) : Registry :=
  match dictLookup r.client_streams websocket with
  | none => r
  | some streams =>
      let r' := unsubFold r websocket streams
      { r' with client_streams := dictRemove r'.client_streams websocket }

/-- `broadcast_to_stream` of `app.py` (lines 72-88): no-op when the topic has
no entry; otherwise send to every subscribed client except `exclude`,
collect the clients whose send raised, and clean each of them up after the
full pass.  `sendFails` says which connection handles raise on send.
Returns the successful deliveries and the resulting registry. -/
def broadcast_to_stream (r : Registry) (stream_name : Topic) (message : String)
    (exclude : Option Conn) (sendFails : Conn → Bool) :
    List (Conn × String) × Registry :=
  match dictLookup r.stream_subscriptions stream_name with
  | none => ([], r)
  | some clients =>
      let targets : List Conn := clients.filter (fun client => !(decide (some client = exclude)))
      let delivered : List (Conn × String) :=
        (targets.filter (fun client => !(sendFails client))).map
          (fun client => (client, message))
      let disconnected : List Conn := targets.filter (fun client => sendFails client)
      (delivered, disconnected.foldl (fun acc client => cleanup_client_subscriptions acc client) r)

/-- One registry mutation, for stating "any sequence of operations". -/
inductive RegOp where
  | sub (c : Conn) (t : Topic) : RegOp
  | unsub (c : Conn) (t : Topic) : RegOp
  | cleanup (c : Conn) : RegOp

/-- Apply one registry operation (discarding the boolean result). -/
def applyOp (r : Registry) : RegOp → Registry
  | RegOp.sub c t => (subscribe_to_stream r c t).2
  | RegOp.unsub c t => (unsubscribe_from_stream r c t).2
  | RegOp.cleanup c => cleanup_client_subscriptions r c

/-- Run a sequence of registry operations from the empty registry. -/
def runOps (ops : List RegOp) : Registry :=
  ops.foldl applyOp emptyRegistry

/-- Mutual consistency of the two maps: `C in stream_subscriptions[T]` iff
`T in client_streams[C]`. -/
def consistent (r : Registry) : Prop :=
  ∀ c t, memFwd r c t = memInv r c t

/-- Python set equality (`==`) on sets modelled as lists: same elements. -/
def setEq {a : Type} [DecidableEq a] (s1 s2 : List a) : Bool :=
  s1.all (fun x => decide (x ∈ s2)) && s2.all (fun x => decide (x ∈ s1))

/-- Python dict equality (`==`): same key set, and values equal under `veq`
at every key.  Assumes duplicate-free key lists, which all our operations
maintain. -/
def dictEquiv {k v : Type} [DecidableEq k] (veq : v → v → Bool)
    (d1 d2 : List (k × v)) : Bool :=
  d1.all (fun p =>
      match dictLookup d2 p.1 with
      | some v2 => veq p.2 v2
      | none => false)
    && d2.all (fun p => dictContains d1 p.1)

/-- Python `==` on the pair of global dicts: equality of both dicts, with
set values compared as sets. -/
def registryEq (r1 r2 : Registry) : Bool :=
  dictEquiv setEq r1.stream_subscriptions r2.stream_subscriptions &&
    dictEquiv setEq r1.client_streams r2.client_streams

/-! ## Session loop dispatch

The body of `websocket_endpoint` (`app.py` lines 195-307) processes one
inbound text frame at a time.  We model the processing of a single frame:
the frame arrives as raw text `data`, and `parsed` is the result of
`json.loads(data)` (`none` when that raised `json.JSONDecodeError`).
Replies are the control payloads the loop sends back on this connection
(their serialization by `json.dumps` is a library detail); broadcasts are
the `broadcast_to_stream` invocations the loop makes, whose delivery and
failure-cleanup semantics are `broadcast_to_stream` above.  `closed = true`
means an exception escaped to the outer handler, terminating the receive
loop (the `finally` block then cancels the heartbeat and runs
`cleanup_client_subscriptions`). -/

/-- Mutable state visible to one loop iteration: the registry and the
`greetings` message log. -/
structure LoopState where
  reg : Registry
  greetings : List String
deriving DecidableEq

/-- A control payload sent back on the connection
(`json.dumps({"type": ...})`). -/
inductive Reply where
  | pong : Reply
  | subscribed (stream : Json) (success : Bool) : Reply
  | unsubscribed (stream : Json) (success : Bool) : Reply
deriving DecidableEq

/-- The observable outcome of processing one inbound frame. -/
structure StepResult where
  reg : Registry
  greetings : List String
  replies : List Reply
  broadcasts : List (Topic × String)
  closed : Bool
deriving DecidableEq

/-- Python `str.strip()` with no arguments: drop whitespace from both ends.
(`String.trim` is not used because its auxiliary functions are defined by
well-founded recursion, which the kernel cannot evaluate.) -/
def pyStrip (s : String) : String :=
  ⟨((s.data.dropWhile Char.isWhitespace).reverse.dropWhile Char.isWhitespace).reverse⟩

/-- A frame that is consumed with no effect at all (`continue` with no
state change, no reply and no broadcast). -/
def noEffect (st : LoopState) : StepResult :=
  ⟨st.reg, st.greetings, [], [], false⟩

/-- The turbo-stream fragment for the `greetings` topic (`app.py` lines
256-261 and 290-295). -/
def greetingFragment (greeting : String) : String :=
  "\n<turbo-stream action=\"append\" target=\"greetings\">\n  <template>\n    <li>"
    ++ greeting ++ "</li>\n  </template>\n</turbo-stream>"

/-- The turbo-stream fragment for the `notifications` topic (`app.py` lines
264-269). -/
def notificationFragment (timestamp content : String) : String :=
  "\n<turbo-stream action=\"append\" target=\"notifications\">\n  <template>\n    <li><strong>"
    ++ timestamp ++ "</strong>: " ++ content ++ "</li>\n  </template>\n</turbo-stream>"

/-- The turbo-stream fragment for the `alerts` topic (`app.py` lines
272-277). -/
def alertFragment (timestamp content : String) : String :=
  "\n<turbo-stream action=\"append\" target=\"alerts\">\n  <template>\n    <li style=\"color: #dc3545;\"><strong>"
    ++ timestamp ++ "</strong>: " ++ content ++ "</li>\n  </template>\n</turbo-stream>"

/-- The legacy plain-text path (`app.py` lines 283-297): strip the raw
frame; when non-empty, append `Hello, name!` to the log and broadcast the
greetings fragment to the `greetings` stream. -/
def handle_legacy_text (st : LoopState) (data : String) : StepResult :=
  let name := pyStrip data
  if name.isEmpty then
    noEffect st
  else
    let greeting := "Hello, " ++ name ++ "!"
    ⟨st.reg, st.greetings ++ [greeting], [],
      [(Json.jStr "greetings", greetingFragment greeting)], false⟩

/-- The `message` kind body (`app.py` lines 247-279): `stream_name` is
`msg.get("stream")`, `content` is the already-stripped string content.
Only the three known topics cause a broadcast; any other stream name falls
off the inner if-chain and the frame is consumed by the trailing
`continue`. -/
def handle_message_kind (st : LoopState) (timestamp : String)
    (stream_name : Option Json) (content : String) : StepResult :=
  if pyTruthyOpt stream_name && !content.isEmpty then
    if stream_name = some (Json.jStr "greetings") then
      let greeting := "Hello, " ++ content ++ "!"
      ⟨st.reg, st.greetings ++ [greeting], [],
        [(Json.jStr "greetings", greetingFragment greeting)], false⟩
    else if stream_name = some (Json.jStr "notifications") then
      ⟨st.reg, st.greetings, [],
        [(Json.jStr "notifications", notificationFragment timestamp content)], false⟩
    else if stream_name = some (Json.jStr "alerts") then
      ⟨st.reg, st.greetings, [],
        [(Json.jStr "alerts", alertFragment timestamp content)], false⟩
    else
      noEffect st
  else
    noEffect st

/-- Processing of one inbound frame by `websocket_endpoint` (`app.py` lines
217-297).  `parsed` is `json.loads(data)` (`none` on `JSONDecodeError`,
which routes to the legacy plain-text path).  A parsed non-object makes
`msg.get("type")` raise `AttributeError`, which escapes to the outer
`except` and ends the loop (`closed`).  A parsed object is dispatched on
its `type` tag; a missing or unrecognized tag falls out of the if-chain and
reaches the legacy plain-text block with the raw frame text.  In the
`message` branch, `msg.get("content", "").strip()` raises on a present
non-string content value. -/
def websocket_handle_frame (st : LoopState) (websocket : Conn) (timestamp : String)
    (data : String) (parsed : Option Json) : StepResult :=
  match parsed with
  | none => handle_legacy_text st data
  | some (Json.jObj fields) =>
      let msg_type := fields.get "type"
      if msg_type = some (Json.jStr "ping") then
        ⟨st.reg, st.greetings, [Reply.pong], [], false⟩
      else if msg_type = some (Json.jStr "pong") then
        noEffect st
      else if msg_type = some (Json.jStr "subscribe") then
        let stream_name := fields.get "stream"
        if pyTruthyOpt stream_name then
          let sv := stream_name.getD Json.jNull
          let res := subscribe_to_stream st.reg websocket sv
          ⟨res.2, st.greetings, [Reply.subscribed sv res.1], [], false⟩
        else
          noEffect st
      else if msg_type = some (Json.jStr "unsubscribe") then
        let stream_name := fields.get "stream"
        if pyTruthyOpt stream_name then
          let sv := stream_name.getD Json.jNull
          let res := unsubscribe_from_stream st.reg websocket sv
          ⟨res.2, st.greetings, [Reply.unsubscribed sv res.1], [], false⟩
        else
          noEffect st
      else if msg_type = some (Json.jStr "message") then
        match fields.get "content" with
        | none => handle_message_kind st timestamp (fields.get "stream") ""
        | some (Json.jStr c) => handle_message_kind st timestamp (fields.get "stream") (pyStrip c)
        | some _ => ⟨st.reg, st.greetings, [], [], true⟩
      else
        handle_legacy_text st data
  | some _ => ⟨st.reg, st.greetings, [], [], true⟩

/-- The five `type` tags the dispatch if-chain recognizes. -/
def recognizedType (t : Option Json) : Bool :=
  decide (t = some (Json.jStr "ping")) || decide (t = some (Json.jStr "pong"))
    || decide (t = some (Json.jStr "subscribe"))
    || decide (t = some (Json.jStr "unsubscribe"))
    || decide (t = some (Json.jStr "message"))

/-! ## Basic lemmas about the dict and set model -/

theorem dictLookup_insert {k v : Type} [DecidableEq k] (d : List (k × v)) (key : k)
    (val : v) (q : k) :
    dictLookup (dictInsert d key val) q = if key = q then some val else dictLookup d q := by
  induction d with
  | nil =>
      by_cases hq : key = q
      · simp [dictInsert, dictLookup, hq]
      · simp [dictInsert, dictLookup, hq]
  | cons p rest ih =>
      obtain ⟨k', v'⟩ := p
      by_cases hk : k' = key
      · subst hk
        by_cases hq : k' = q
        · subst hq
          simp [dictInsert, dictLookup]
        · simp [dictInsert, dictLookup, hq]
      · have hk2 : ¬ key = k' := fun h => hk h.symm
        by_cases hq : k' = q
        · subst hq
          have hq2 : ¬ key = k' := hk2
          simp [dictInsert, if_neg hk, dictLookup, if_neg hq2]
        · simp [dictInsert, if_neg hk, dictLookup, if_neg hq, ih]

theorem dictLookup_remove {k v : Type} [DecidableEq k] (d : List (k × v)) (key : k)
    (q : k) :
    dictLookup (dictRemove d key) q = if key = q then none else dictLookup d q := by
  induction d with
  | nil =>
      by_cases hq : key = q
      · simp [dictRemove, dictLookup, hq]
      · simp [dictRemove, dictLookup, hq]
  | cons p rest ih =>
      obtain ⟨k', v'⟩ := p
      by_cases hk : k' = key
      · subst hk
        have hstep : dictRemove ((k', v') :: rest) k' = dictRemove rest k' := by
          simp [dictRemove, List.filter]
        rw [hstep, ih]
        by_cases hq : k' = q
        · simp [if_pos hq]
        · simp [if_neg hq, dictLookup, hq]
      · have hstep : dictRemove ((k', v') :: rest) key = (k', v') :: dictRemove rest key := by
          simp [dictRemove, List.filter, hk]
        rw [hstep]
        by_cases hq : k' = q
        · subst hq
          have hq2 : ¬ key = k' := fun h => hk h.symm
          simp [dictLookup, if_neg hq2]
        · simp [dictLookup, if_neg hq, ih]

theorem dictInsert_of_lookup_none {k v : Type} [DecidableEq k] (d : List (k × v))
    (key : k) (val : v) (h : dictLookup d key = none) :
    dictInsert d key val = d ++ [(key, val)] := by
  induction d with
  | nil => simp [dictInsert]
  | cons p rest ih =>
      obtain ⟨k', v'⟩ := p
      by_cases hk : k' = key
      · subst hk
        simp [dictLookup] at h
      · simp only [dictLookup, if_neg hk] at h
        simp [dictInsert, if_neg hk, ih h]

theorem dictRemove_of_lookup_none {k v : Type} [DecidableEq k] (d : List (k × v))
    (key : k) (h : dictLookup d key = none) :
    dictRemove d key = d := by
  induction d with
  | nil => simp [dictRemove]
  | cons p rest ih =>
      obtain ⟨k', v'⟩ := p
      by_cases hk : k' = key
      · subst hk
        simp [dictLookup] at h
      · simp only [dictLookup, if_neg hk] at h
        simp [dictRemove, List.filter, hk] at ih ⊢
        exact ih h

theorem dictInsert_dictInsert {k v : Type} [DecidableEq k] (d : List (k × v))
    (key : k) (v1 v2 : v) :
    dictInsert (dictInsert d key v1) key v2 = dictInsert d key v2 := by
  induction d with
  | nil => simp [dictInsert]
  | cons p rest ih =>
      obtain ⟨k', v'⟩ := p
      by_cases hk : k' = key
      · subst hk
        simp [dictInsert]
      · simp [dictInsert, if_neg hk, ih]

theorem dictInsert_lookup_self {k v : Type} [DecidableEq k] (d : List (k × v))
    (key : k) (val : v) (h : dictLookup d key = some val) :
    dictInsert d key val = d := by
  induction d with
  | nil => simp [dictLookup] at h
  | cons p rest ih =>
      obtain ⟨k', v'⟩ := p
      by_cases hk : k' = key
      · subst hk
        have hl : dictLookup ((k', v') :: rest) k' = some v' := by simp [dictLookup]
        rw [hl] at h
        have hv : v' = val := Option.some.inj h
        subst hv
        simp [dictInsert]
      · simp only [dictLookup, if_neg hk] at h
        simp [dictInsert, if_neg hk, ih h]

theorem dictRemove_dictInsert {k v : Type} [DecidableEq k] (d : List (k × v))
    (key : k) (val : v) :
    dictRemove (dictInsert d key val) key = dictRemove d key := by
  induction d with
  | nil => simp [dictInsert, dictRemove, List.filter]
  | cons p rest ih =>
      obtain ⟨k', v'⟩ := p
      by_cases hk : k' = key
      · subst hk
        simp [dictInsert, dictRemove, List.filter]
      · simp [dictInsert, if_neg hk, dictRemove, List.filter, hk] at ih ⊢
        exact ih

theorem mem_setAdd {a : Type} [DecidableEq a] (s : List a) (x y : a) :
    y ∈ setAdd s x ↔ y ∈ s ∨ y = x := by
  unfold setAdd
  by_cases hx : x ∈ s
  · simp only [if_pos hx]
    constructor
    · exact Or.inl
    · intro h
      cases h with
      | inl h => exact h
      | inr h => exact h ▸ hx
  · simp [if_neg hx]

theorem mem_setDiscard {a : Type} [DecidableEq a] (s : List a) (x y : a) :
    y ∈ setDiscard s x ↔ y ∈ s ∧ ¬ y = x := by
  simp [setDiscard, List.mem_filter]

theorem setAdd_ne_nil {a : Type} [DecidableEq a] (s : List a) (x : a) :
    ¬ setAdd s x = [] := by
  intro h
  have hx : x ∈ setAdd s x := (mem_setAdd s x x).2 (Or.inr rfl)
  rw [h] at hx
  exact List.not_mem_nil x hx

theorem setDiscard_of_not_mem {a : Type} [DecidableEq a] (s : List a) (x : a)
    (h : ¬ x ∈ s) : setDiscard s x = s := by
  unfold setDiscard
  apply List.filter_eq_self.2
  intro y hy
  have hne : ¬ y = x := fun he => h (he ▸ hy)
  simp [hne]

theorem setDiscard_eq_nil_iff {a : Type} [DecidableEq a] (s : List a) (x : a) :
    setDiscard s x = [] ↔ ∀ y ∈ s, y = x := by
  unfold setDiscard
  rw [List.filter_eq_nil_iff]
  constructor
  · intro h y hy
    have := h y hy
    simpa using this
  · intro h y hy
    simpa using h y hy

/-! ## Characterizations of the registry operations -/

theorem bool_eq_of_iff {b1 b2 : Bool} (h : b1 = true ↔ b2 = true) : b1 = b2 := by
  cases b1 <;> cases b2 <;> simp_all

theorem memFwd_getD (r : Registry) (c : Conn) (t : Topic) :
    memFwd r c t = true ↔ c ∈ (dictLookup r.stream_subscriptions t).getD [] := by
  unfold memFwd
  cases hl : dictLookup r.stream_subscriptions t with
  | none => simp
  | some cs => simp

theorem memInv_getD (r : Registry) (c : Conn) (t : Topic) :
    memInv r c t = true ↔ t ∈ (dictLookup r.client_streams c).getD [] := by
  unfold memInv
  cases hl : dictLookup r.client_streams c with
  | none => simp
  | some ts => simp

theorem memFwd_false_notMem (r : Registry) (c : Conn) (t : Topic)
    (h : memFwd r c t = false) : ¬ c ∈ (dictLookup r.stream_subscriptions t).getD [] := by
  intro hc
  have := (memFwd_getD r c t).2 hc
  rw [h] at this
  cases this

theorem subscribe_of_mem (r : Registry) (c : Conn) (t : Topic)
    (h : memFwd r c t = true) : subscribe_to_stream r c t = (false, r) := by
  rw [memFwd_getD] at h
  unfold subscribe_to_stream
  simp [h]

theorem subscribe_fst (r : Registry) (c : Conn) (t : Topic) :
    (subscribe_to_stream r c t).1 = !(memFwd r c t) := by
  unfold subscribe_to_stream
  by_cases hc : c ∈ (dictLookup r.stream_subscriptions t).getD []
  · simp [hc, (memFwd_getD r c t).2 hc]
  · have hf : memFwd r c t = false := by
      cases hm : memFwd r c t with
      | false => rfl
      | true => exact absurd ((memFwd_getD r c t).1 hm) hc
    simp [hc, hf]

theorem subscribe_snd_fwd (r : Registry) (c : Conn) (t : Topic)
    (h : memFwd r c t = false) :
    (subscribe_to_stream r c t).2.stream_subscriptions =
      dictInsert r.stream_subscriptions t
        (setAdd ((dictLookup r.stream_subscriptions t).getD []) c) := by
  unfold subscribe_to_stream
  simp [if_neg (memFwd_false_notMem r c t h)]

theorem subscribe_snd_inv (r : Registry) (c : Conn) (t : Topic)
    (h : memFwd r c t = false) :
    (subscribe_to_stream r c t).2.client_streams =
      dictInsert r.client_streams c
        (setAdd ((dictLookup r.client_streams c).getD []) t) := by
  unfold subscribe_to_stream
  simp [if_neg (memFwd_false_notMem r c t h)]

theorem subscribe_fwd (r : Registry) (c : Conn) (t : Topic) (d : Conn) (u : Topic) :
    memFwd (subscribe_to_stream r c t).2 d u = true ↔
      memFwd r d u = true ∨ (d = c ∧ u = t) := by
  by_cases h : memFwd r c t = true
  · rw [subscribe_of_mem r c t h]
    constructor
    · exact Or.inl
    · intro hd
      cases hd with
      | inl hd => exact hd
      | inr hd => rw [hd.1, hd.2]; exact h
  · have hf : memFwd r c t = false := by
      cases hm : memFwd r c t with
      | false => rfl
      | true => exact absurd hm h
    rw [memFwd_getD]
    have hss := subscribe_snd_fwd r c t hf
    rw [hss, dictLookup_insert]
    by_cases hu : t = u
    · subst hu
      simp only [if_pos rfl, eq_self_iff_true, if_true, Option.getD_some]
      rw [mem_setAdd, memFwd_getD]
      constructor
      · intro hd
        cases hd with
        | inl hd => exact Or.inl hd
        | inr hd => exact Or.inr ⟨hd, trivial⟩
      · intro hd
        cases hd with
        | inl hd => exact Or.inl hd
        | inr hd => exact Or.inr hd.1
    · simp only [if_neg hu]
      rw [memFwd_getD]
      constructor
      · exact Or.inl
      · intro hd
        cases hd with
        | inl hd => exact hd
        | inr hd => exact absurd hd.2.symm hu

theorem subscribe_inv (r : Registry) (c : Conn) (t : Topic) (d : Conn) (u : Topic)
    (h : memFwd r c t = false) :
    memInv (subscribe_to_stream r c t).2 d u = true ↔
      memInv r d u = true ∨ (d = c ∧ u = t) := by
  rw [memInv_getD]
  have hcs := subscribe_snd_inv r c t h
  rw [hcs, dictLookup_insert]
  by_cases hd : c = d
  · subst hd
    simp only [if_pos rfl, eq_self_iff_true, if_true, Option.getD_some]
    rw [mem_setAdd, memInv_getD]
    constructor
    · intro hu
      cases hu with
      | inl hu => exact Or.inl hu
      | inr hu => exact Or.inr ⟨trivial, hu⟩
    · intro hu
      cases hu with
      | inl hu => exact Or.inl hu
      | inr hu => exact Or.inr hu.2
  · simp only [if_neg hd]
    rw [memInv_getD]
    constructor
    · exact Or.inl
    · intro hu
      cases hu with
      | inl hu => exact hu
      | inr hu => exact absurd hu.1.symm hd

theorem unsubscribe_of_not_mem (r : Registry) (c : Conn) (t : Topic)
    (h : memFwd r c t = false) : unsubscribe_from_stream r c t = (false, r) := by
  unfold unsubscribe_from_stream
  cases hl : dictLookup r.stream_subscriptions t with
  | none => simp
  | some cs =>
      have hc : ¬ c ∈ cs := by
        intro hc
        have := (memFwd_getD r c t).2 (by rw [hl]; exact hc)
        rw [h] at this
        cases this
      simp [hc]

theorem unsubscribe_fst (r : Registry) (c : Conn) (t : Topic) :
    (unsubscribe_from_stream r c t).1 = memFwd r c t := by
  unfold unsubscribe_from_stream memFwd
  cases hl : dictLookup r.stream_subscriptions t with
  | none => simp
  | some cs =>
      by_cases hc : c ∈ cs
      · simp [hc]
      · simp [hc]

theorem unsubscribe_fwd (r : Registry) (c : Conn) (t : Topic) (d : Conn) (u : Topic)
    (h : memFwd r c t = true) :
    memFwd (unsubscribe_from_stream r c t).2 d u = true ↔
      memFwd r d u = true ∧ ¬ (d = c ∧ u = t) := by
  cases hl : dictLookup r.stream_subscriptions t with
  | none => rw [memFwd_getD, hl] at h; simp at h
  | some cs =>
      have hc : c ∈ cs := by rw [memFwd_getD, hl] at h; simpa using h
      unfold unsubscribe_from_stream
      simp only [hl, if_pos hc]
      rw [memFwd_getD]
      by_cases hemp : (setDiscard cs c).isEmpty = true
      · simp only [hemp, if_pos rfl, eq_self_iff_true, if_true]
        rw [dictLookup_remove]
        by_cases hu : t = u
        · subst hu
          simp only [if_pos rfl, eq_self_iff_true, if_true, Option.getD_none]
          constructor
          · intro hd
            exact absurd hd (List.not_mem_nil d)
          · rintro ⟨h1, h2⟩
            rw [List.isEmpty_iff] at hemp
            rw [memFwd_getD, hl] at h1
            simp only [Option.getD_some] at h1
            have hdc : d = c := by
              by_contra hdc
              have : d ∈ setDiscard cs c := (mem_setDiscard cs c d).2 ⟨h1, hdc⟩
              rw [hemp] at this
              exact List.not_mem_nil d this
            exact absurd ⟨hdc, trivial⟩ h2
        · simp only [if_neg hu]
          rw [dictLookup_insert, if_neg hu, memFwd_getD]
          constructor
          · intro hd
            exact ⟨hd, fun hp => hu hp.2.symm⟩
          · exact And.left
      · rw [if_neg hemp, dictLookup_insert]
        by_cases hu : t = u
        · subst hu
          simp only [if_pos rfl, eq_self_iff_true, if_true, Option.getD_some]
          rw [mem_setDiscard, memFwd_getD, hl]
          simp only [Option.getD_some]
          constructor
          · rintro ⟨h1, h2⟩
            exact ⟨h1, fun hp => h2 hp.1⟩
          · rintro ⟨h1, h2⟩
            exact ⟨h1, fun hd => h2 ⟨hd, trivial⟩⟩
        · simp only [if_neg hu]
          rw [memFwd_getD]
          constructor
          · intro hd
            exact ⟨hd, fun hp => hu hp.2.symm⟩
          · exact And.left

theorem unsubscribe_inv (r : Registry) (c : Conn) (t : Topic) (d : Conn) (u : Topic)
    (h : memFwd r c t = true) :
    memInv (unsubscribe_from_stream r c t).2 d u = true ↔
      memInv r d u = true ∧ ¬ (d = c ∧ u = t) := by
  cases hl : dictLookup r.stream_subscriptions t with
  | none => rw [memFwd_getD, hl] at h; simp at h
  | some cs =>
      have hc : c ∈ cs := by rw [memFwd_getD, hl] at h; simpa using h
      unfold unsubscribe_from_stream
      simp only [hl, if_pos hc]
      cases hlc : dictLookup r.client_streams c with
      | none =>
          simp only [hlc]
          have hinv : ∀ u', memInv r c u' = false := by
            intro u'
            unfold memInv
            rw [hlc]
          by_cases hemp : (setDiscard cs c).isEmpty = true
          · simp only [hemp, if_pos rfl, eq_self_iff_true, if_true]
            rw [memInv_getD]
            simp only [Registry.client_streams]
            rw [← memInv_getD]
            by_cases hdc : d = c
            · subst hdc
              rw [hinv u]
              simp
            · constructor
              · intro hd
                exact ⟨hd, fun hp => hdc hp.1⟩
              · exact And.left
          · rw [if_neg hemp, memInv_getD]
            simp only [Registry.client_streams]
            rw [← memInv_getD]
            by_cases hdc : d = c
            · subst hdc
              rw [hinv u]
              simp
            · constructor
              · intro hd
                exact ⟨hd, fun hp => hdc hp.1⟩
              · exact And.left
      | some ts =>
          simp only [hlc]
          by_cases hemp : (setDiscard cs c).isEmpty = true
          · simp only [hemp, if_pos rfl, eq_self_iff_true, if_true]
            rw [memInv_getD]
            simp only [Registry.client_streams]
            rw [dictLookup_insert]
            by_cases hdc : c = d
            · subst hdc
              simp only [if_pos rfl, eq_self_iff_true, if_true, Option.getD_some]
              rw [mem_setDiscard, memInv_getD, hlc]
              simp only [Option.getD_some]
              constructor
              · rintro ⟨h1, h2⟩
                exact ⟨h1, fun hp => h2 hp.2⟩
              · rintro ⟨h1, h2⟩
                exact ⟨h1, fun hu => h2 ⟨trivial, hu⟩⟩
            · simp only [if_neg hdc]
              rw [memInv_getD]
              constructor
              · intro hd
                exact ⟨hd, fun hp => hdc hp.1.symm⟩
              · exact And.left
          · rw [if_neg hemp, memInv_getD]
            simp only [Registry.client_streams]
            rw [dictLookup_insert]
            by_cases hdc : c = d
            · subst hdc
              simp only [if_pos rfl, eq_self_iff_true, if_true, Option.getD_some]
              rw [mem_setDiscard, memInv_getD, hlc]
              simp only [Option.getD_some]
              constructor
              · rintro ⟨h1, h2⟩
                exact ⟨h1, fun hp => h2 hp.2⟩
              · rintro ⟨h1, h2⟩
                exact ⟨h1, fun hu => h2 ⟨trivial, hu⟩⟩
            · simp only [if_neg hdc]
              rw [memInv_getD]
              constructor
              · intro hd
                exact ⟨hd, fun hp => hdc hp.1.symm⟩
              · exact And.left

theorem unsubscribe_inv_lookup_other (r : Registry) (c : Conn) (t : Topic) (d : Conn)
    (hd : ¬ d = c) :
    dictLookup (unsubscribe_from_stream r c t).2.client_streams d =
      dictLookup r.client_streams d := by
  unfold unsubscribe_from_stream
  cases hl : dictLookup r.stream_subscriptions t with
  | none => simp
  | some cs =>
      by_cases hc : c ∈ cs
      · simp only [hl, if_pos hc]
        cases hlc : dictLookup r.client_streams c with
        | none =>
            by_cases hemp : (setDiscard cs c).isEmpty = true <;>
              simp [hemp]
        | some ts =>
            have hcd : ¬ c = d := fun h => hd h.symm
            by_cases hemp : (setDiscard cs c).isEmpty = true <;>
              simp [hemp, dictLookup_insert, hcd]
      · simp [hl, hc]

theorem unsubscribe_fwd_other (r : Registry) (c : Conn) (t : Topic) (d : Conn)
    (u : Topic) (hd : ¬ d = c) :
    memFwd (unsubscribe_from_stream r c t).2 d u = memFwd r d u := by
  by_cases hm : memFwd r c t = true
  · apply bool_eq_of_iff
    rw [unsubscribe_fwd r c t d u hm]
    constructor
    · exact And.left
    · intro h1
      exact ⟨h1, fun hp => hd hp.1⟩
  · have hm' : memFwd r c t = false := by
      cases hx : memFwd r c t with
      | false => rfl
      | true => exact absurd hx hm
    rw [unsubscribe_of_not_mem r c t hm']

/-! ## The unsubscribe loop of cleanup, and consistency preservation -/

theorem memFwd_eq_false (r : Registry) (c : Conn) (t : Topic)
    (h : ¬ memFwd r c t = true) : memFwd r c t = false := by
  cases hx : memFwd r c t with
  | false => rfl
  | true => exact absurd hx h

theorem unsubFold_nil (r : Registry) (c : Conn) : unsubFold r c [] = r := rfl

theorem unsubFold_cons (r : Registry) (c : Conn) (hd : Topic) (tl : List Topic) :
    unsubFold r c (hd :: tl) = unsubFold (unsubscribe_from_stream r c hd).2 c tl := rfl

theorem unsubFold_fwd (c : Conn) (L : List Topic) (r : Registry) (d : Conn) (u : Topic) :
    memFwd (unsubFold r c L) d u = true ↔
      memFwd r d u = true ∧ ¬ (d = c ∧ u ∈ L) := by
  induction L generalizing r with
  | nil => simp [unsubFold_nil]
  | cons hd tl ih =>
      rw [unsubFold_cons, ih]
      by_cases hm : memFwd r c hd = true
      · rw [unsubscribe_fwd r c hd d u hm, List.mem_cons]
        constructor
        · rintro ⟨⟨h1, h2⟩, h3⟩
          refine ⟨h1, ?_⟩
          rintro ⟨hdc, hu⟩
          cases hu with
          | inl hu => exact h2 ⟨hdc, hu⟩
          | inr hu => exact h3 ⟨hdc, hu⟩
        · rintro ⟨h1, h2⟩
          exact ⟨⟨h1, fun hp => h2 ⟨hp.1, Or.inl hp.2⟩⟩,
            fun hp => h2 ⟨hp.1, Or.inr hp.2⟩⟩
      · rw [unsubscribe_of_not_mem r c hd (memFwd_eq_false r c hd hm), List.mem_cons]
        constructor
        · rintro ⟨h1, h2⟩
          refine ⟨h1, ?_⟩
          rintro ⟨hdc, hu⟩
          cases hu with
          | inl hu =>
              subst hdc
              subst hu
              exact hm h1
          | inr hu => exact h2 ⟨hdc, hu⟩
        · rintro ⟨h1, h2⟩
          exact ⟨h1, fun hp => h2 ⟨hp.1, Or.inr hp.2⟩⟩

theorem unsubFold_inv_lookup_other (c : Conn) (L : List Topic) (r : Registry) (d : Conn)
    (hd : ¬ d = c) :
    dictLookup (unsubFold r c L).client_streams d = dictLookup r.client_streams d := by
  induction L generalizing r with
  | nil => rw [unsubFold_nil]
  | cons t tl ih =>
      rw [unsubFold_cons, ih, unsubscribe_inv_lookup_other r c t d hd]

theorem consistent_subscribe (r : Registry) (c : Conn) (t : Topic)
    (h : consistent r) : consistent (subscribe_to_stream r c t).2 := by
  by_cases hm : memFwd r c t = true
  · rw [subscribe_of_mem r c t hm]
    exact h
  · intro d u
    apply bool_eq_of_iff
    rw [subscribe_fwd r c t d u,
      subscribe_inv r c t d u (memFwd_eq_false r c t hm), h d u]

theorem consistent_unsubscribe (r : Registry) (c : Conn) (t : Topic)
    (h : consistent r) : consistent (unsubscribe_from_stream r c t).2 := by
  by_cases hm : memFwd r c t = true
  · intro d u
    apply bool_eq_of_iff
    rw [unsubscribe_fwd r c t d u hm, unsubscribe_inv r c t d u hm, h d u]
  · rw [unsubscribe_of_not_mem r c t (memFwd_eq_false r c t hm)]
    exact h

theorem consistent_unsubFold (c : Conn) (L : List Topic) (r : Registry)
    (h : consistent r) : consistent (unsubFold r c L) := by
  induction L generalizing r with
  | nil => rw [unsubFold_nil]; exact h
  | cons t tl ih =>
      rw [unsubFold_cons]
      exact ih _ (consistent_unsubscribe r c t h)

theorem unsubFold_inv_self (c : Conn) (L : List Topic) (r : Registry) (u : Topic)
    (h : consistent r) :
    memInv (unsubFold r c L) c u = true ↔ memInv r c u = true ∧ ¬ u ∈ L := by
  induction L generalizing r with
  | nil => simp [unsubFold_nil]
  | cons t tl ih =>
      rw [unsubFold_cons, ih _ (consistent_unsubscribe r c t h), List.mem_cons]
      by_cases hm : memFwd r c t = true
      · rw [unsubscribe_inv r c t c u hm]
        constructor
        · rintro ⟨⟨h1, h2⟩, h3⟩
          refine ⟨h1, ?_⟩
          rintro (hu | hu)
          · exact h2 ⟨rfl, hu⟩
          · exact h3 hu
        · rintro ⟨h1, h2⟩
          exact ⟨⟨h1, fun hp => h2 (Or.inl hp.2)⟩, fun hu => h2 (Or.inr hu)⟩
      · rw [unsubscribe_of_not_mem r c t (memFwd_eq_false r c t hm)]
        constructor
        · rintro ⟨h1, h2⟩
          refine ⟨h1, ?_⟩
          rintro (hu | hu)
          · subst hu
            rw [← h c u] at h1
            exact hm h1
          · exact h2 hu
        · rintro ⟨h1, h2⟩
          exact ⟨h1, fun hu => h2 (Or.inr hu)⟩

/-! ## Characterizations of cleanup -/

theorem cleanup_of_no_entry (r : Registry) (c : Conn)
    (h : dictLookup r.client_streams c = none) :
    cleanup_client_subscriptions r c = r := by
  unfold cleanup_client_subscriptions
  rw [h]

theorem cleanup_inv_lookup_other (r : Registry) (c : Conn) (d : Conn) (hd : ¬ d = c) :
    dictLookup (cleanup_client_subscriptions r c).client_streams d =
      dictLookup r.client_streams d := by
  unfold cleanup_client_subscriptions
  cases hl : dictLookup r.client_streams c with
  | none => rfl
  | some streams =>
      simp only []
      rw [dictLookup_remove, if_neg (fun h => hd h.symm)]
      exact unsubFold_inv_lookup_other c streams r d hd

theorem cleanup_not_contains (r : Registry) (c : Conn) :
    dictContains (cleanup_client_subscriptions r c).client_streams c = false := by
  unfold cleanup_client_subscriptions
  cases hl : dictLookup r.client_streams c with
  | none =>
      unfold dictContains
      rw [hl]
      rfl
  | some streams =>
      unfold dictContains
      simp only []
      rw [dictLookup_remove, if_pos rfl]
      rfl

theorem cleanup_fwd_other (r : Registry) (c : Conn) (d : Conn) (u : Topic)
    (hd : ¬ d = c) :
    memFwd (cleanup_client_subscriptions r c) d u = memFwd r d u := by
  unfold cleanup_client_subscriptions
  cases hl : dictLookup r.client_streams c with
  | none => rfl
  | some streams =>
      apply bool_eq_of_iff
      have hfwd : ∀ r' : Registry, ∀ cls,
          memFwd { r' with client_streams := cls } d u = memFwd r' d u := by
        intro r' cls
        unfold memFwd
        rfl
      simp only []
      rw [hfwd, unsubFold_fwd]
      constructor
      · exact And.left
      · intro h1
        exact ⟨h1, fun hp => hd hp.1⟩

theorem cleanup_fwd_self (r : Registry) (c : Conn) (u : Topic) (h : consistent r) :
    memFwd (cleanup_client_subscriptions r c) c u = false := by
  unfold cleanup_client_subscriptions
  cases hl : dictLookup r.client_streams c with
  | none =>
      have := h c u
      unfold memInv at this
      rw [hl] at this
      exact this
  | some streams =>
      have hfwd : ∀ r' : Registry, ∀ cls,
          memFwd { r' with client_streams := cls } c u = memFwd r' c u := by
        intro r' cls
        unfold memFwd
        rfl
      simp only []
      rw [hfwd]
      cases hx : memFwd (unsubFold r c streams) c u with
      | false => rfl
      | true =>
          rw [unsubFold_fwd] at hx
          obtain ⟨h1, h2⟩ := hx
          rw [h c u] at h1
          rw [memInv_getD, hl] at h1
          simp only [Option.getD_some] at h1
          exact absurd ⟨rfl, h1⟩ h2

theorem cleanup_inv_self (r : Registry) (c : Conn) (u : Topic) :
    memInv (cleanup_client_subscriptions r c) c u = false := by
  have h := cleanup_not_contains r c
  unfold dictContains at h
  unfold memInv
  cases hl : dictLookup (cleanup_client_subscriptions r c).client_streams c with
  | none => rfl
  | some ts =>
      rw [hl] at h
      cases h

theorem consistent_cleanup (r : Registry) (c : Conn) (h : consistent r) :
    consistent (cleanup_client_subscriptions r c) := by
  intro d u
  by_cases hd : d = c
  · subst hd
    rw [cleanup_fwd_self r d u h, cleanup_inv_self r d u]
  · rw [cleanup_fwd_other r c d u hd]
    unfold memInv
    rw [cleanup_inv_lookup_other r c d hd]
    rw [h d u]
    unfold memInv
    rfl

/-! ## Topic keys hold non-empty sets (machinery for C7) -/

/-- The spec invariant of C7: a topic key is present in the forward map only
with a non-empty subscriber set. -/
def topicKeysNonempty (r : Registry) : Prop :=
  ∀ t cs, dictLookup r.stream_subscriptions t = some cs → ¬ cs = []

theorem topicKeysNonempty_subscribe (r : Registry) (c : Conn) (t : Topic)
    (h : topicKeysNonempty r) : topicKeysNonempty (subscribe_to_stream r c t).2 := by
  by_cases hm : memFwd r c t = true
  · rw [subscribe_of_mem r c t hm]
    exact h
  · intro u cs hcs
    rw [subscribe_snd_fwd r c t (memFwd_eq_false r c t hm), dictLookup_insert] at hcs
    by_cases hu : t = u
    · rw [if_pos hu] at hcs
      injection hcs with hcs
      rw [← hcs]
      exact setAdd_ne_nil _ _
    · rw [if_neg hu] at hcs
      exact h u cs hcs

theorem topicKeysNonempty_unsubscribe (r : Registry) (c : Conn) (t : Topic)
    (h : topicKeysNonempty r) : topicKeysNonempty (unsubscribe_from_stream r c t).2 := by
  by_cases hm : memFwd r c t = true
  · cases hl : dictLookup r.stream_subscriptions t with
    | none => rw [memFwd_getD, hl] at hm; simp at hm
    | some cs =>
        have hc : c ∈ cs := by rw [memFwd_getD, hl] at hm; simpa using hm
        intro u cs0 hcs0
        unfold unsubscribe_from_stream at hcs0
        simp only [hl, if_pos hc] at hcs0
        by_cases hemp : (setDiscard cs c).isEmpty = true
        · simp only [hemp, if_pos rfl, eq_self_iff_true, if_true] at hcs0
          rw [dictLookup_remove] at hcs0
          by_cases hu : t = u
          · rw [if_pos hu] at hcs0
            cases hcs0
          · rw [if_neg hu, dictLookup_insert, if_neg hu] at hcs0
            exact h u cs0 hcs0
        · rw [if_neg hemp, dictLookup_insert] at hcs0
          by_cases hu : t = u
          · rw [if_pos hu] at hcs0
            injection hcs0 with hcs0
            rw [← hcs0]
            intro hnil
            rw [hnil] at hemp
            exact hemp rfl
          · rw [if_neg hu] at hcs0
            exact h u cs0 hcs0
  · rw [unsubscribe_of_not_mem r c t (memFwd_eq_false r c t hm)]
    exact h

theorem topicKeysNonempty_unsubFold (c : Conn) (L : List Topic) (r : Registry)
    (h : topicKeysNonempty r) : topicKeysNonempty (unsubFold r c L) := by
  induction L generalizing r with
  | nil => exact h
  | cons t tl ih =>
      rw [unsubFold_cons]
      exact ih _ (topicKeysNonempty_unsubscribe r c t h)

theorem topicKeysNonempty_cleanup (r : Registry) (c : Conn)
    (h : topicKeysNonempty r) : topicKeysNonempty (cleanup_client_subscriptions r c) := by
  unfold cleanup_client_subscriptions
  cases hl : dictLookup r.client_streams c with
  | none => exact h
  | some streams =>
      intro u cs hcs
      exact topicKeysNonempty_unsubFold c streams r h u cs hcs

/-! ## Forward keys untouched by unsubscribing an outsider (machinery for C10) -/

theorem unsubscribe_lookup_not_mem (r : Registry) (c : Conn) (t : Topic) (u : Topic)
    (cs : List Conn) (hu : dictLookup r.stream_subscriptions u = some cs)
    (hc : ¬ c ∈ cs) :
    dictLookup (unsubscribe_from_stream r c t).2.stream_subscriptions u = some cs := by
  by_cases hm : memFwd r c t = true
  · cases hl : dictLookup r.stream_subscriptions t with
    | none => rw [memFwd_getD, hl] at hm; simp at hm
    | some cst =>
        have hct : c ∈ cst := by rw [memFwd_getD, hl] at hm; simpa using hm
        have hut : ¬ t = u := by
          intro he
          subst he
          rw [hl] at hu
          injection hu with hu
          subst hu
          exact hc hct
        unfold unsubscribe_from_stream
        simp only [hl, if_pos hct]
        by_cases hemp : (setDiscard cst c).isEmpty = true
        · simp only [hemp, if_pos rfl, eq_self_iff_true, if_true]
          rw [dictLookup_remove, if_neg hut, dictLookup_insert, if_neg hut]
          exact hu
        · rw [if_neg hemp, dictLookup_insert, if_neg hut]
          exact hu
  · rw [unsubscribe_of_not_mem r c t (memFwd_eq_false r c t hm)]
    exact hu

theorem unsubFold_lookup_not_mem (c : Conn) (L : List Topic) (r : Registry) (u : Topic)
    (cs : List Conn) (hu : dictLookup r.stream_subscriptions u = some cs)
    (hc : ¬ c ∈ cs) :
    dictLookup (unsubFold r c L).stream_subscriptions u = some cs := by
  induction L generalizing r with
  | nil => exact hu
  | cons t tl ih =>
      rw [unsubFold_cons]
      exact ih _ (unsubscribe_lookup_not_mem r c t u cs hu hc)

theorem memFwd_contains (r : Registry) (c : Conn) (t : Topic)
    (h : memFwd r c t = true) : dictContains r.stream_subscriptions t = true := by
  unfold memFwd at h
  unfold dictContains
  cases hl : dictLookup r.stream_subscriptions t with
  | none => rw [hl] at h; cases h
  | some cs => rfl

/-! ## Sequences of operations -/

theorem consistent_applyOp (r : Registry) (op : RegOp) (h : consistent r) :
    consistent (applyOp r op) := by
  cases op with
  | sub c t => exact consistent_subscribe r c t h
  | unsub c t => exact consistent_unsubscribe r c t h
  | cleanup c => exact consistent_cleanup r c h

theorem consistent_foldl (ops : List RegOp) (r : Registry) (h : consistent r) :
    consistent (List.foldl applyOp r ops) := by
  induction ops generalizing r with
  | nil => exact h
  | cons op rest ih => exact ih _ (consistent_applyOp r op h)

theorem consistent_empty : consistent emptyRegistry := by
  intro c t
  rfl

theorem topicKeysNonempty_applyOp (r : Registry) (op : RegOp)
    (h : topicKeysNonempty r) : topicKeysNonempty (applyOp r op) := by
  cases op with
  | sub c t => exact topicKeysNonempty_subscribe r c t h
  | unsub c t => exact topicKeysNonempty_unsubscribe r c t h
  | cleanup c => exact topicKeysNonempty_cleanup r c h

theorem topicKeysNonempty_foldl (ops : List RegOp) (r : Registry)
    (h : topicKeysNonempty r) : topicKeysNonempty (List.foldl applyOp r ops) := by
  induction ops generalizing r with
  | nil => exact h
  | cons op rest ih => exact ih _ (topicKeysNonempty_applyOp r op h)

theorem topicKeysNonempty_empty : topicKeysNonempty emptyRegistry := by
  intro t cs hcs
  cases hcs

/-! ## Round-trip machinery (C2) -/

theorem setAdd_of_not_mem {a : Type} [DecidableEq a] (s : List a) (x : a)
    (h : ¬ x ∈ s) : setAdd s x = s ++ [x] := by
  unfold setAdd
  rw [if_neg h]

theorem setDiscard_append {a : Type} [DecidableEq a] (s1 s2 : List a) (x : a) :
    setDiscard (s1 ++ s2) x = setDiscard s1 x ++ setDiscard s2 x := by
  unfold setDiscard
  simp [List.filter_append]

theorem setDiscard_singleton_self {a : Type} [DecidableEq a] (x : a) :
    setDiscard [x] x = [] := by
  simp [setDiscard]

theorem memInv_false_notMem (r : Registry) (c : Conn) (t : Topic)
    (h : memInv r c t = false) : ¬ t ∈ (dictLookup r.client_streams c).getD [] := by
  intro hc
  have := (memInv_getD r c t).2 hc
  rw [h] at this
  cases this

theorem roundtrip_regs (r : Registry) (c : Conn) (t : Topic)
    (hf : memFwd r c t = false) (hi : memInv r c t = false)
    (hne : ∀ cs, dictLookup r.stream_subscriptions t = some cs → ¬ cs = []) :
    (unsubscribe_from_stream (subscribe_to_stream r c t).2 c t).2.stream_subscriptions =
        r.stream_subscriptions ∧
      (unsubscribe_from_stream (subscribe_to_stream r c t).2 c t).2.client_streams =
        (if dictContains r.client_streams c = true then r.client_streams
          else r.client_streams ++ [(c, [])]) := by
  have hcur : ¬ c ∈ (dictLookup r.stream_subscriptions t).getD [] :=
    memFwd_false_notMem r c t hf
  have hts : ¬ t ∈ (dictLookup r.client_streams c).getD [] :=
    memInv_false_notMem r c t hi
  have hss1 := subscribe_snd_fwd r c t hf
  have hcs1 := subscribe_snd_inv r c t hf
  set r1 := (subscribe_to_stream r c t).2 with hr1
  have hlook1 : dictLookup r1.stream_subscriptions t =
      some (setAdd ((dictLookup r.stream_subscriptions t).getD []) c) := by
    rw [hss1, dictLookup_insert, if_pos rfl]
  have hmem1 : c ∈ setAdd ((dictLookup r.stream_subscriptions t).getD []) c :=
    (mem_setAdd _ c c).2 (Or.inr rfl)
  have hdisc : setDiscard (setAdd ((dictLookup r.stream_subscriptions t).getD []) c) c =
      (dictLookup r.stream_subscriptions t).getD [] := by
    rw [setAdd_of_not_mem _ c hcur, setDiscard_append,
      setDiscard_singleton_self, setDiscard_of_not_mem _ c hcur, List.append_nil]
  have hlookc : dictLookup r1.client_streams c =
      some (setAdd ((dictLookup r.client_streams c).getD []) t) := by
    rw [hcs1, dictLookup_insert, if_pos rfl]
  have hdisct : setDiscard (setAdd ((dictLookup r.client_streams c).getD []) t) t =
      (dictLookup r.client_streams c).getD [] := by
    rw [setAdd_of_not_mem _ t hts, setDiscard_append,
      setDiscard_singleton_self, setDiscard_of_not_mem _ t hts, List.append_nil]
  unfold unsubscribe_from_stream
  rw [hlook1]
  simp only [if_pos hmem1, hdisc, hlookc, hdisct]
  constructor
  · cases hl : dictLookup r.stream_subscriptions t with
    | none =>
        simp only [hss1, hl, Option.getD_none, List.isEmpty_nil, if_pos rfl,
          eq_self_iff_true, if_true]
        rw [dictRemove_dictInsert, dictRemove_dictInsert]
        exact dictRemove_of_lookup_none _ t hl
    | some cs0 =>
        have hne0 : ¬ cs0 = [] := hne cs0 hl
        have hempty : cs0.isEmpty = false := by
          cases cs0 with
          | nil => exact absurd rfl hne0
          | cons a as => rfl
        simp only [hss1, hl, Option.getD_some, hempty]
        rw [if_neg Bool.false_ne_true]
        rw [dictInsert_dictInsert]
        exact dictInsert_lookup_self _ t cs0 hl
  · cases hlc : dictLookup r.client_streams c with
    | none =>
        have hcont : dictContains r.client_streams c = false := by
          unfold dictContains
          rw [hlc]
          rfl
        rw [hcont]
        rw [if_neg Bool.false_ne_true]
        simp only [hcs1, hlc, Option.getD_none]
        rw [dictInsert_dictInsert]
        exact dictInsert_of_lookup_none _ c _ hlc
    | some ts0 =>
        have hcont : dictContains r.client_streams c = true := by
          unfold dictContains
          rw [hlc]
          rfl
        rw [hcont]
        rw [if_pos rfl]
        simp only [hcs1, hlc, Option.getD_some]
        rw [dictInsert_dictInsert]
        exact dictInsert_lookup_self _ c ts0 hlc

/-! ## The cleanup pass after a broadcast (machinery for C5) -/

theorem consistent_cleanupFold (D : List Conn) (r : Registry) (h : consistent r) :
    consistent
      (D.foldl (fun acc client => cleanup_client_subscriptions acc client) r) := by
  induction D generalizing r with
  | nil => exact h
  | cons d tl ih => exact ih _ (consistent_cleanup r d h)

theorem cleanupFold_frame (D : List Conn) (r : Registry) (c : Conn)
    (h : ∀ d ∈ D, ¬ d = c) :
    (∀ u, memFwd
        (D.foldl (fun acc client => cleanup_client_subscriptions acc client) r) c u =
        memFwd r c u) ∧
      dictLookup
          (D.foldl (fun acc client => cleanup_client_subscriptions acc client) r).client_streams
          c =
        dictLookup r.client_streams c := by
  induction D generalizing r with
  | nil => exact ⟨fun u => rfl, rfl⟩
  | cons d tl ih =>
      have hdc : ¬ c = d := fun he => h d (List.mem_cons_self d tl) he.symm
      have htl : ∀ d' ∈ tl, ¬ d' = c := fun d' hd' => h d' (List.mem_cons_of_mem d hd')
      obtain ⟨ihf, ihl⟩ := ih (cleanup_client_subscriptions r d) htl
      constructor
      · intro u
        rw [List.foldl_cons] at *
        rw [ihf u, cleanup_fwd_other r d c u hdc]
      · rw [List.foldl_cons] at *
        rw [ihl, cleanup_inv_lookup_other r d c hdc]

theorem cleanupFold_removes (D : List Conn) (r : Registry) (c : Conn)
    (h : consistent r) (hc : c ∈ D) :
    (∀ u, memFwd
        (D.foldl (fun acc client => cleanup_client_subscriptions acc client) r) c u =
        false) ∧
      dictContains
          (D.foldl (fun acc client => cleanup_client_subscriptions acc client) r).client_streams
          c =
        false := by
  induction D generalizing r with
  | nil => cases hc
  | cons d tl ih =>
      by_cases htl : c ∈ tl
      · have := ih (cleanup_client_subscriptions r d) (consistent_cleanup r d h) htl
        rw [List.foldl_cons]
        exact this
      · have hcd : c = d := by
          cases List.mem_cons.1 hc with
          | inl he => exact he
          | inr he => exact absurd he htl
        subst hcd
        have hframe : ∀ d' ∈ tl, ¬ d' = c := by
          intro d' hd' he
          subst he
          exact htl hd'
        obtain ⟨hf, hl⟩ := cleanupFold_frame tl (cleanup_client_subscriptions r c) c hframe
        rw [List.foldl_cons]
        constructor
        · intro u
          rw [hf u, cleanup_fwd_self r c u h]
        · unfold dictContains
          rw [hl]
          have := cleanup_not_contains r c
          unfold dictContains at this
          exact this

/-! ## Claim theorems -/

/-- C1: for every sequence of subscribe, unsubscribe and cleanup operations
starting from the empty registry, the forward and inverse maps stay mutually
consistent: a connection is in `stream_subscriptions[T]` iff `T` is in its
`client_streams` entry. -/
theorem C1_forward_inverse_consistency (ops : List RegOp) : consistent (runOps ops) :=
  consistent_foldl ops emptyRegistry consistent_empty

/-- C1 witness: the consistency invariant at one concrete operation
sequence. -/
theorem C1_forward_inverse_consistency_witness :
    consistent (runOps [RegOp.sub 0 (Json.jStr "greetings"),
      RegOp.sub 0 (Json.jStr "alerts"), RegOp.unsub 0 (Json.jStr "greetings"),
      RegOp.cleanup 0]) :=
  C1_forward_inverse_consistency [RegOp.sub 0 (Json.jStr "greetings"),
    RegOp.sub 0 (Json.jStr "alerts"), RegOp.unsub 0 (Json.jStr "greetings"),
    RegOp.cleanup 0]

/-- C2 counterexample: starting from the empty registry (where connection 0
is not subscribed to "greetings"), subscribe followed by unsubscribe does
not return the registry exactly to its prior state: the inverse map keeps a
leftover entry `0 ↦ ∅`, so the resulting pair of dicts differs from the
empty registry both structurally and under Python `==`. -/
theorem C2_roundtrip_counterexample :
    memFwd emptyRegistry 0 (Json.jStr "greetings") = false ∧
      ¬ (unsubscribe_from_stream
          (subscribe_to_stream emptyRegistry 0 (Json.jStr "greetings")).2 0
          (Json.jStr "greetings")).2 = emptyRegistry ∧
      registryEq
        (unsubscribe_from_stream
          (subscribe_to_stream emptyRegistry 0 (Json.jStr "greetings")).2 0
          (Json.jStr "greetings")).2 emptyRegistry = false := by
  refine ⟨by decide, by decide, by decide⟩

/-- C2 (amended): when connection `c` is not subscribed to `t` in either map
and the forward entry of `t` (if any) is non-empty, subscribe followed by
unsubscribe restores the forward map exactly; the inverse map is restored
exactly when `c` already had an inverse entry, and otherwise differs only by
a leftover empty entry `c ↦ ∅` appended to it. -/
theorem C2_roundtrip_amended (r : Registry) (c : Conn) (t : Topic)
    (hf : memFwd r c t = false) (hi : memInv r c t = false)
    (hne : ∀ cs, dictLookup r.stream_subscriptions t = some cs → ¬ cs = []) :
    (unsubscribe_from_stream (subscribe_to_stream r c t).2 c t).2.stream_subscriptions =
        r.stream_subscriptions ∧
      (unsubscribe_from_stream (subscribe_to_stream r c t).2 c t).2.client_streams =
        (if dictContains r.client_streams c = true then r.client_streams
          else r.client_streams ++ [(c, [])]) :=
  roundtrip_regs r c t hf hi hne

/-- C2 witness: the amended round trip at the empty registry. -/
theorem C2_roundtrip_amended_witness :
    (unsubscribe_from_stream (subscribe_to_stream emptyRegistry 0 (Json.jStr "alerts")).2 0
        (Json.jStr "alerts")).2.stream_subscriptions = emptyRegistry.stream_subscriptions ∧
      (unsubscribe_from_stream (subscribe_to_stream emptyRegistry 0 (Json.jStr "alerts")).2 0
        (Json.jStr "alerts")).2.client_streams =
        (if dictContains emptyRegistry.client_streams 0 = true then
            emptyRegistry.client_streams
          else emptyRegistry.client_streams ++ [(0, [])]) :=
  C2_roundtrip_amended emptyRegistry 0 (Json.jStr "alerts") (by decide) (by decide)
    (fun cs hcs => Option.noConfusion hcs)

/-- C6: when `subscribe_to_stream` returns true, the topic's subscriber set
contains the connection afterwards, and an immediately repeated subscribe
returns false and leaves the registry (both maps) exactly unchanged. -/
theorem C6_subscribe_idempotent (r : Registry) (c : Conn) (t : Topic)
    (_h : (subscribe_to_stream r c t).1 = true) :
    memFwd (subscribe_to_stream r c t).2 c t = true ∧
      subscribe_to_stream (subscribe_to_stream r c t).2 c t =
        (false, (subscribe_to_stream r c t).2) := by
  have h1 : memFwd (subscribe_to_stream r c t).2 c t = true :=
    (subscribe_fwd r c t c t).2 (Or.inr ⟨rfl, rfl⟩)
  exact ⟨h1, subscribe_of_mem _ c t h1⟩

/-- C6 witness: double subscribe on a concrete registry. -/
theorem C6_subscribe_idempotent_witness :
    memFwd (subscribe_to_stream emptyRegistry 0 (Json.jStr "news")).2 0
        (Json.jStr "news") = true ∧
      subscribe_to_stream (subscribe_to_stream emptyRegistry 0 (Json.jStr "news")).2 0
          (Json.jStr "news") =
        (false, (subscribe_to_stream emptyRegistry 0 (Json.jStr "news")).2) :=
  C6_subscribe_idempotent emptyRegistry 0 (Json.jStr "news") (by decide)

/-- C7: in every registry reachable by a sequence of operations from the
empty one, a topic key present in the forward map has a non-empty
subscriber set (so a key exists iff its set is non-empty). -/
theorem C7_topic_keys_nonempty (ops : List RegOp) : topicKeysNonempty (runOps ops) :=
  topicKeysNonempty_foldl ops emptyRegistry topicKeysNonempty_empty

/-- C7 witness: the invariant instantiated at a concrete reachable registry
and topic. -/
theorem C7_topic_keys_nonempty_witness : ¬ ([0] : List Conn) = [] :=
  C7_topic_keys_nonempty [RegOp.sub 0 (Json.jStr "news")] (Json.jStr "news") [0]
    (by decide)

/-- C8 counterexample: after subscribe then unsubscribe, connection 0 has an
empty inverse entry (no subscriptions at all), yet
`cleanup_client_subscriptions` changes the registry: it deletes that empty
entry, so the inverse dict before and after differ under Python `==`. -/
theorem C8_cleanup_counterexample :
    (unsubscribe_from_stream
        (subscribe_to_stream emptyRegistry 0 (Json.jStr "alerts")).2 0
        (Json.jStr "alerts")).2.client_streams = [(0, [])] ∧
      registryEq
        (cleanup_client_subscriptions
          (unsubscribe_from_stream
            (subscribe_to_stream emptyRegistry 0 (Json.jStr "alerts")).2 0
            (Json.jStr "alerts")).2 0)
        (unsubscribe_from_stream
          (subscribe_to_stream emptyRegistry 0 (Json.jStr "alerts")).2 0
          (Json.jStr "alerts")).2 = false := by
  refine ⟨by decide, by decide⟩

/-- C8 (amended): `cleanup_client_subscriptions c` removes `c` from every
topic's subscriber set (in a consistent registry) and removes `c`'s inverse
entry; a second call is an exact no-op, and a call on a connection with no
inverse entry leaves the registry exactly unchanged.  (A connection whose
inverse entry is the empty set merely has that entry deleted.) -/
theorem C8_cleanup_amended (r : Registry) (c : Conn) :
    (consistent r → ∀ t, memFwd (cleanup_client_subscriptions r c) c t = false) ∧
      dictContains (cleanup_client_subscriptions r c).client_streams c = false ∧
      cleanup_client_subscriptions (cleanup_client_subscriptions r c) c =
        cleanup_client_subscriptions r c ∧
      (dictContains r.client_streams c = false → cleanup_client_subscriptions r c = r) := by
  refine ⟨fun h t => cleanup_fwd_self r c t h, cleanup_not_contains r c, ?_, ?_⟩
  · apply cleanup_of_no_entry
    have h2 := cleanup_not_contains r c
    unfold dictContains at h2
    cases hl : dictLookup (cleanup_client_subscriptions r c).client_streams c with
    | none => rfl
    | some ts => rw [hl] at h2; cases h2
  · intro h
    apply cleanup_of_no_entry
    unfold dictContains at h
    cases hl : dictLookup r.client_streams c with
    | none => rfl
    | some ts => rw [hl] at h; cases h

/-- C8 witness: cleanup of a doubly subscribed connection on a concrete
registry, with the consistency hypothesis discharged by reachability. -/
theorem C8_cleanup_amended_witness :
    memFwd
        (cleanup_client_subscriptions
          (runOps [RegOp.sub 0 (Json.jStr "a"), RegOp.sub 0 (Json.jStr "b")]) 0) 0
        (Json.jStr "a") = false ∧
      dictContains
        (cleanup_client_subscriptions
          (runOps [RegOp.sub 0 (Json.jStr "a"), RegOp.sub 0 (Json.jStr "b")]) 0).client_streams
        0 = false :=
  ⟨(C8_cleanup_amended
      (runOps [RegOp.sub 0 (Json.jStr "a"), RegOp.sub 0 (Json.jStr "b")]) 0).1
      (consistent_foldl _ emptyRegistry consistent_empty) (Json.jStr "a"),
    (C8_cleanup_amended
      (runOps [RegOp.sub 0 (Json.jStr "a"), RegOp.sub 0 (Json.jStr "b")]) 0).2.1⟩

/-- C9: unsubscribing a connection that is not subscribed to the topic
(including when the topic has no entry at all) returns false and leaves the
registry (both maps) exactly unchanged. -/
theorem C9_unsubscribe_not_subscribed_noop (r : Registry) (c : Conn) (t : Topic)
    (h : memFwd r c t = false) : unsubscribe_from_stream r c t = (false, r) :=
  unsubscribe_of_not_mem r c t h

/-- C9 witness: unsubscribe on the empty registry. -/
theorem C9_unsubscribe_not_subscribed_noop_witness :
    unsubscribe_from_stream emptyRegistry 0 (Json.jStr "alerts") =
      (false, emptyRegistry) :=
  C9_unsubscribe_not_subscribed_noop emptyRegistry 0 (Json.jStr "alerts") (by decide)

/-- C10: cleanup of connection `c` is invisible to every other connection
`d`: `d`'s inverse entry is exactly unchanged and `d`'s membership in every
topic's set is unchanged; furthermore a topic key can disappear only when
`c` belonged to its set and every member of its set was `c` (i.e. `c` was
its sole subscriber). -/
theorem C10_cleanup_frame_property (r : Registry) (c : Conn) :
    (∀ d, ¬ d = c →
        dictLookup (cleanup_client_subscriptions r c).client_streams d =
          dictLookup r.client_streams d) ∧
      (∀ d u, ¬ d = c →
        memFwd (cleanup_client_subscriptions r c) d u = memFwd r d u) ∧
      (∀ u cs, dictLookup r.stream_subscriptions u = some cs →
        dictContains (cleanup_client_subscriptions r c).stream_subscriptions u = false →
        c ∈ cs ∧ ∀ x ∈ cs, x = c) := by
  refine ⟨fun d hd => cleanup_inv_lookup_other r c d hd,
    fun d u hd => cleanup_fwd_other r c d u hd, ?_⟩
  intro u cs hcs habs
  have hall : ∀ x ∈ cs, x = c := by
    intro x hx
    by_contra hxc
    have hmem : memFwd r x u = true := by
      rw [memFwd_getD, hcs]
      exact hx
    have hmem2 : memFwd (cleanup_client_subscriptions r c) x u = true := by
      rw [cleanup_fwd_other r c x u hxc]
      exact hmem
    have := memFwd_contains _ x u hmem2
    rw [habs] at this
    cases this
  refine ⟨?_, hall⟩
  by_contra hnc
  have hstay := unsubFold_lookup_not_mem c
  unfold cleanup_client_subscriptions at habs
  cases hlc : dictLookup r.client_streams c with
  | none =>
      rw [hlc] at habs
      unfold dictContains at habs
      rw [hcs] at habs
      cases habs
  | some streams =>
      rw [hlc] at habs
      unfold dictContains at habs
      simp only [] at habs
      rw [unsubFold_lookup_not_mem c streams r u cs hcs hnc] at habs
      cases habs

/-- C5: during a broadcast, every subscriber of the topic other than the
excluded sender whose send succeeds receives the message (one failing
subscriber never prevents delivery to the others, because the registry is
only mutated after the full pass); after the pass, cleanup runs on exactly
the connections whose send failed, removing them from both registry maps,
while connections whose send succeeds keep their registry state untouched. -/
theorem C5_broadcast_failures (r : Registry) (t : Topic) (m : String)
    (ex : Option Conn) (sendFails : Conn → Bool) (h : consistent r) :
    (∀ c, (c, m) ∈ (broadcast_to_stream r t m ex sendFails).1 ↔
        (memFwd r c t = true ∧ ¬ some c = ex ∧ sendFails c = false)) ∧
      (∀ c, memFwd r c t = true → ¬ some c = ex → sendFails c = true →
        (∀ u, memFwd (broadcast_to_stream r t m ex sendFails).2 c u = false) ∧
          dictContains (broadcast_to_stream r t m ex sendFails).2.client_streams c =
            false) ∧
      (∀ c, sendFails c = false →
        (∀ u, memFwd (broadcast_to_stream r t m ex sendFails).2 c u = memFwd r c u) ∧
          dictLookup (broadcast_to_stream r t m ex sendFails).2.client_streams c =
            dictLookup r.client_streams c) := by
  unfold broadcast_to_stream
  cases hl : dictLookup r.stream_subscriptions t with
  | none =>
      refine ⟨?_, ?_, ?_⟩
      · intro c
        simp only [List.not_mem_nil, false_iff]
        rintro ⟨h1, _, _⟩
        rw [memFwd_getD, hl] at h1
        exact List.not_mem_nil c h1
      · intro c h1
        rw [memFwd_getD, hl] at h1
        simp at h1
      · intro c _
        exact ⟨fun u => rfl, rfl⟩
  | some clients =>
      simp only []
      refine ⟨?_, ?_, ?_⟩
      · intro c
        constructor
        · intro hc
          obtain ⟨a, ha, he⟩ := List.mem_map.1 hc
          have hac : a = c := congrArg Prod.fst he
          subst hac
          rw [List.mem_filter] at ha
          obtain ⟨ha1, ha2⟩ := ha
          rw [List.mem_filter] at ha1
          obtain ⟨hamem, haex⟩ := ha1
          refine ⟨?_, ?_, ?_⟩
          · rw [memFwd_getD, hl]
            simpa using hamem
          · simpa using haex
          · simpa using ha2
        · rintro ⟨h1, h2, h3⟩
          apply List.mem_map.2
          refine ⟨c, ?_, rfl⟩
          rw [List.mem_filter]
          refine ⟨?_, by simp [h3]⟩
          rw [List.mem_filter]
          refine ⟨?_, by simp [h2]⟩
          rw [memFwd_getD, hl] at h1
          simpa using h1
      · intro c h1 h2 h3
        have hmemc : c ∈ clients := by
          rw [memFwd_getD, hl] at h1
          simpa using h1
        have hcdisc : c ∈ (clients.filter
            (fun client => !(decide (some client = ex)))).filter
            (fun client => sendFails client) := by
          rw [List.mem_filter]
          refine ⟨?_, by simp [h3]⟩
          rw [List.mem_filter]
          exact ⟨hmemc, by simp [h2]⟩
        exact cleanupFold_removes _ r c h hcdisc
      · intro c hfail
        have hnotin : ∀ d ∈ (clients.filter
            (fun client => !(decide (some client = ex)))).filter
            (fun client => sendFails client), ¬ d = c := by
          intro d hd he
          subst he
          rw [List.mem_filter] at hd
          rw [hfail] at hd
          exact Bool.false_ne_true hd.2
        exact cleanupFold_frame _ r c hnotin

/-- C5 witness: a topic with one failing subscriber (1) and one healthy
subscriber (2); the healthy one is delivered to. -/
theorem C5_broadcast_failures_witness :
    (2, "boom") ∈
        (broadcast_to_stream
          (runOps [RegOp.sub 1 (Json.jStr "alerts"), RegOp.sub 2 (Json.jStr "alerts")])
          (Json.jStr "alerts") "boom" none (fun c => decide (c = 1))).1 ↔
      (memFwd (runOps [RegOp.sub 1 (Json.jStr "alerts"), RegOp.sub 2 (Json.jStr "alerts")])
          2 (Json.jStr "alerts") = true ∧
        ¬ some 2 = (none : Option Conn) ∧ decide ((2 : Conn) = 1) = false) :=
  (C5_broadcast_failures
      (runOps [RegOp.sub 1 (Json.jStr "alerts"), RegOp.sub 2 (Json.jStr "alerts")])
      (Json.jStr "alerts") "boom" none (fun c => decide (c = 1))
      (consistent_foldl _ emptyRegistry consistent_empty)).1 2

/-- C3 counterexample: the frame `{"type": "bogus"}` is a structured JSON
object with an unrecognized type tag, which the claim says is silently
dropped; the code instead falls through to the legacy plain-text path,
appending to the message log and broadcasting to the greetings stream. -/
theorem C3_malformed_counterexample :
    ¬ (websocket_handle_frame ⟨emptyRegistry, []⟩ 0 "12:00:00"
        "\x7b\"type\": \"bogus\"\x7d"
        (some (Json.jObj (JsonFields.fcons "type" (Json.jStr "bogus")
          JsonFields.fnil)))).broadcasts = [] ∧
      ¬ (websocket_handle_frame ⟨emptyRegistry, []⟩ 0 "12:00:00"
        "\x7b\"type\": \"bogus\"\x7d"
        (some (Json.jObj (JsonFields.fcons "type" (Json.jStr "bogus")
          JsonFields.fnil)))).greetings = ([] : List String) := by
  refine ⟨by decide, by decide⟩

/-- C3 (amended): a structured JSON object frame with a recognized type tag
but malformed required fields (subscribe or unsubscribe with a falsy
`stream`; message with an absent content field, a falsy `stream`, or
whitespace-only content) is silently dropped: connection stays active, no
reply, no broadcast, registry and log unchanged.  A structured JSON object
frame with a missing or unrecognized type tag is not dropped: it falls
through to the legacy plain-text path on the raw frame text. -/
theorem C3_malformed_amended (st : LoopState) (ws : Conn) (ts data : String)
    (fields : JsonFields) :
    (recognizedType (fields.get "type") = false →
      websocket_handle_frame st ws ts data (some (Json.jObj fields)) =
        handle_legacy_text st data) ∧
      (fields.get "type" = some (Json.jStr "subscribe") →
        pyTruthyOpt (fields.get "stream") = false →
        websocket_handle_frame st ws ts data (some (Json.jObj fields)) = noEffect st) ∧
      (fields.get "type" = some (Json.jStr "unsubscribe") →
        pyTruthyOpt (fields.get "stream") = false →
        websocket_handle_frame st ws ts data (some (Json.jObj fields)) = noEffect st) ∧
      (fields.get "type" = some (Json.jStr "message") →
        fields.get "content" = none →
        websocket_handle_frame st ws ts data (some (Json.jObj fields)) = noEffect st) ∧
      (fields.get "type" = some (Json.jStr "message") →
        ∀ s, fields.get "content" = some (Json.jStr s) →
        (pyTruthyOpt (fields.get "stream") = false ∨ pyStrip s = "") →
        websocket_handle_frame st ws ts data (some (Json.jObj fields)) = noEffect st) := by
  refine ⟨?_, ?_, ?_, ?_, ?_⟩
  · intro hrec
    unfold recognizedType at hrec
    simp only [Bool.or_eq_false_iff, decide_eq_false_iff_not] at hrec
    obtain ⟨⟨⟨⟨h1, h2⟩, h3⟩, h4⟩, h5⟩ := hrec
    simp only [websocket_handle_frame, if_neg h1, if_neg h2, if_neg h3, if_neg h4,
      if_neg h5]
  · intro htype hstream
    simp only [websocket_handle_frame, htype]
    simp only [Option.some.injEq, Json.jStr.injEq, String.reduceEq, if_false,
      reduceCtorEq]
    simp [hstream]
  · intro htype hstream
    simp only [websocket_handle_frame, htype]
    simp only [Option.some.injEq, Json.jStr.injEq, String.reduceEq, if_false,
      reduceCtorEq]
    simp [hstream]
  · intro htype hcontent
    simp only [websocket_handle_frame, htype]
    simp only [Option.some.injEq, Json.jStr.injEq, String.reduceEq, if_false,
      reduceCtorEq]
    simp only [hcontent]
    unfold handle_message_kind
    simp only [noEffect, Bool.and_eq_true, Bool.not_eq_true']
    have hcF : ¬ (pyTruthyOpt (fields.get "stream") = true ∧
        ("" : String).isEmpty = false) := fun hcond => absurd hcond.2 (by decide)
    rw [if_pos trivial, if_neg hcF]
  · intro htype s hcontent hbad
    simp only [websocket_handle_frame, htype]
    simp only [Option.some.injEq, Json.jStr.injEq, String.reduceEq, if_false,
      reduceCtorEq]
    simp only [hcontent]
    unfold handle_message_kind
    cases hbad with
    | inl hstream => simp [hstream, noEffect]
    | inr hempty =>
        rw [hempty]
        simp only [noEffect, Bool.and_eq_true, Bool.not_eq_true']
        have hcF : ¬ (pyTruthyOpt (fields.get "stream") = true ∧
            ("" : String).isEmpty = false) := fun hcond => absurd hcond.2 (by decide)
        rw [if_pos trivial, if_neg hcF]

/-- C3 witness: a subscribe frame with no stream field is silently dropped. -/
theorem C3_malformed_amended_witness :
    websocket_handle_frame ⟨emptyRegistry, []⟩ 0 "12:00:00"
        "\x7b\"type\": \"subscribe\"\x7d"
        (some (Json.jObj (JsonFields.fcons "type" (Json.jStr "subscribe")
          JsonFields.fnil))) =
      noEffect ⟨emptyRegistry, []⟩ :=
  (C3_malformed_amended ⟨emptyRegistry, []⟩ 0 "12:00:00"
      "\x7b\"type\": \"subscribe\"\x7d"
      (JsonFields.fcons "type" (Json.jStr "subscribe") JsonFields.fnil)).2.1
    (by decide) (by decide)

/-- C4 counterexample: a message frame with the unknown stream name "zzz"
and non-empty content produces no broadcast at all (the claim says its
content is broadcast verbatim to that topic): the step has no effect. -/
theorem C4_unknown_stream_counterexample :
    websocket_handle_frame ⟨emptyRegistry, []⟩ 0 "12:00:00"
        "\x7b\"type\": \"message\", \"stream\": \"zzz\", \"content\": \"hi\"\x7d"
        (some (Json.jObj (JsonFields.fcons "type" (Json.jStr "message")
          (JsonFields.fcons "stream" (Json.jStr "zzz")
            (JsonFields.fcons "content" (Json.jStr "hi") JsonFields.fnil))))) =
      noEffect ⟨emptyRegistry, []⟩ := by
  decide

/-- C4 (amended): a message frame with a non-empty stream name and non-empty
stripped content broadcasts only when the stream is one of the three known
topics, with that topic's template (greetings also appends `Hello, content!`
to the log); any other stream name is silently dropped with no broadcast,
no reply and no state change. -/
theorem C4_message_broadcast_amended (st : LoopState) (ws : Conn) (ts data : String)
    (fields : JsonFields) (s c : String)
    (htype : fields.get "type" = some (Json.jStr "message"))
    (hstream : fields.get "stream" = some (Json.jStr s))
    (hcontent : fields.get "content" = some (Json.jStr c))
    (hs : ¬ s = "") (hc : ¬ pyStrip c = "") :
    (s = "greetings" →
      websocket_handle_frame st ws ts data (some (Json.jObj fields)) =
        ⟨st.reg, st.greetings ++ ["Hello, " ++ pyStrip c ++ "!"], [],
          [(Json.jStr "greetings", greetingFragment ("Hello, " ++ pyStrip c ++ "!"))],
          false⟩) ∧
      (s = "notifications" →
        websocket_handle_frame st ws ts data (some (Json.jObj fields)) =
          ⟨st.reg, st.greetings, [],
            [(Json.jStr "notifications", notificationFragment ts (pyStrip c))],
            false⟩) ∧
      (s = "alerts" →
        websocket_handle_frame st ws ts data (some (Json.jObj fields)) =
          ⟨st.reg, st.greetings, [],
            [(Json.jStr "alerts", alertFragment ts (pyStrip c))], false⟩) ∧
      (¬ s = "greetings" → ¬ s = "notifications" → ¬ s = "alerts" →
        websocket_handle_frame st ws ts data (some (Json.jObj fields)) =
          noEffect st) := by
  have hsE : s.isEmpty = false := by
    cases hx : s.isEmpty with
    | false => rfl
    | true => exact absurd ((String.isEmpty_iff s).1 hx) hs
  have hcE : (pyStrip c).isEmpty = false := by
    cases hx : (pyStrip c).isEmpty with
    | false => rfl
    | true => exact absurd ((String.isEmpty_iff (pyStrip c)).1 hx) hc
  have hstep : websocket_handle_frame st ws ts data (some (Json.jObj fields)) =
      handle_message_kind st ts (fields.get "stream") (pyStrip c) := by
    simp only [websocket_handle_frame, htype]
    simp only [Option.some.injEq, Json.jStr.injEq, String.reduceEq, if_false,
      reduceCtorEq]
    simp only [hcontent]
    rw [if_pos trivial]
  rw [hstep, hstream]
  unfold handle_message_kind
  simp only [pyTruthyOpt, pyTruthy, hsE, hcE, Bool.not_false, Bool.and_self, if_pos rfl,
    eq_self_iff_true, if_true, Option.some.injEq, Json.jStr.injEq]
  refine ⟨?_, ?_, ?_, ?_⟩
  · intro he
    subst he
    simp
  · intro he
    subst he
    simp
  · intro he
    subst he
    simp
  · intro h1 h2 h3
    simp [if_neg h1, if_neg h2, if_neg h3, noEffect]

/-- C4 witness: an alerts message broadcasts the alert fragment. -/
theorem C4_message_broadcast_amended_witness :
    websocket_handle_frame ⟨emptyRegistry, []⟩ 0 "12:00:00"
        "\x7b\"type\": \"message\", \"stream\": \"alerts\", \"content\": \"fire\"\x7d"
        (some (Json.jObj (JsonFields.fcons "type" (Json.jStr "message")
          (JsonFields.fcons "stream" (Json.jStr "alerts")
            (JsonFields.fcons "content" (Json.jStr "fire") JsonFields.fnil))))) =
      ⟨emptyRegistry, [], [],
        [(Json.jStr "alerts", alertFragment "12:00:00" (pyStrip "fire"))], false⟩ :=
  (C4_message_broadcast_amended ⟨emptyRegistry, []⟩ 0 "12:00:00"
      "\x7b\"type\": \"message\", \"stream\": \"alerts\", \"content\": \"fire\"\x7d"
      (JsonFields.fcons "type" (Json.jStr "message")
        (JsonFields.fcons "stream" (Json.jStr "alerts")
          (JsonFields.fcons "content" (Json.jStr "fire") JsonFields.fnil)))
      "alerts" "fire" (by decide) (by decide) (by decide) (by decide) (by decide)).2.2.1
    rfl

/-- C10 witness: cleaning up connection 5 leaves connection 3's topic
membership unchanged on a concrete registry. -/
theorem C10_cleanup_frame_property_witness :
    memFwd
        (cleanup_client_subscriptions
          (runOps [RegOp.sub 5 (Json.jStr "a"), RegOp.sub 3 (Json.jStr "b")]) 5) 3
        (Json.jStr "b") =
      memFwd (runOps [RegOp.sub 5 (Json.jStr "a"), RegOp.sub 3 (Json.jStr "b")]) 3
        (Json.jStr "b") :=
  (C10_cleanup_frame_property
      (runOps [RegOp.sub 5 (Json.jStr "a"), RegOp.sub 3 (Json.jStr "b")]) 5).2.1 3
    (Json.jStr "b") (by decide)
